import Mathlib

/-!
Shallow embedding of `src/custom_chatbot.py` (a keyword-driven financial
Q&A tool over an in-memory dataset of company/fiscal-year records) and
proofs about its query-handling core.

Modelling conventions:
* Python `str` is Lean `String`; character-level work happens on `List Char`.
  `str.lower` is modelled by `Char.toLower` (the dataset and queries of
  interest are ASCII).  The whitespace class of `re` / `str.strip` is the
  ASCII set " \t\n\r\v\f".
* Python `float` metric values are modelled as `ℚ` (exact arithmetic; the
  float-specific artefacts such as `-0.0` play no role in the claims).
* Python `int` is `ℤ`.
* A Python expression that can raise (indexing `[0]` into a possibly empty
  list in the ranking branch, `max` of a possibly empty list in the summary
  branch) is modelled with `Option`: `handle_query` returns `none` exactly
  where the Python code would raise.
* `sorted` with a key (also with `reverse=True`) is a stable sort; it is
  modelled by the stable insertion sort `sortD` (descending by key; an
  ascending sort is obtained through `OrderDual`).  A stable sort by a total
  preorder has a unique result, so any stable sort is a faithful model.
* `re.findall(r"20\d{2}", q)` is modelled by `findall`, which scans left to
  right and, like the regex engine, consumes matches (non-overlapping).
  `\d` is modelled as an ASCII digit.
-/

/-- The ASCII whitespace class of Python's `str.strip` / `\s` (line 58). -/
def pySpace (c : Char) : Bool :=
  c = ' ' || c = '\t' || c = '\n' || c = '\r' || c = Char.ofNat 11 || c = Char.ofNat 12

/-- Split a char list into maximal whitespace-free words (accumulator holds
the current word reversed). -/
def wordsAux : List Char → List Char → List (List Char)
  | cur, [] => if cur.isEmpty then [] else [cur.reverse]
  | cur, c :: rest =>
    if pySpace c then
      if cur.isEmpty then wordsAux [] rest else cur.reverse :: wordsAux [] rest
    else wordsAux (c :: cur) rest

/-- `normalize_text` (line 57-58): lowercase, strip, collapse whitespace runs
to single spaces.  `re.sub(r"\s+", " ", text.strip().lower())` is exactly
"lowercase, then join the whitespace-separated words with single spaces". -/
def normalize_text (s : String) : String :=
  String.mk (List.intercalate [' '] (wordsAux [] (s.toList.map Char.toLower)))

/-- Python's substring containment `needle in hay`. -/
def Substr (needle hay : String) : Prop :=
  needle.toList <:+: hay.toList

instance (n h : String) : Decidable (Substr n h) :=
  List.decidableInfix n.toList h.toList

/-- Boolean form of `Substr`, for use in `List.find?`. -/
def substrB (n h : String) : Bool :=
  decide (Substr n h)

/-- `str.lower` on a whole string. -/
def lowerS (s : String) : String :=
  String.mk (s.toList.map Char.toLower)

/-- The five canonical metric columns of the dataset. -/
inductive Metric where
  | revenue
  | netIncome
  | assets
  | liabilities
  | cashFlow
deriving DecidableEq, Repr

/-- The canonical metric field name (the values of `METRIC_ALIASES`,
lines 14-28). -/
def metricName : Metric → String
  | .revenue => "Total Revenue (USD millions)"
  | .netIncome => "Net Income (USD millions)"
  | .assets => "Total Assets (USD millions)"
  | .liabilities => "Total Liabilities (USD millions)"
  | .cashFlow => "Operating Cash Flow (USD millions)"

/-- `METRIC_ALIASES` (lines 14-28) in dict insertion order: lowercase alias
phrase paired with its canonical metric. -/
def METRIC_ALIASES : List (String × Metric) :=
  [("revenue", .revenue), ("total revenue", .revenue),
   ("income", .netIncome), ("net income", .netIncome), ("profit", .netIncome),
   ("assets", .assets), ("total assets", .assets),
   ("liabilities", .liabilities), ("total liabilities", .liabilities),
   ("debt", .liabilities),
   ("cash flow", .cashFlow), ("operating cash flow", .cashFlow),
   ("cfo", .cashFlow)]

/-- One row of the dataset (`load_data`, lines 43-50): company, fiscal year,
source file name, and one `float` value per canonical metric. -/
structure Record where
  company : String
  year : ℤ
  file : String
  revenue : ℚ
  netIncome : ℚ
  assets : ℚ
  liabilities : ℚ
  cashFlow : ℚ
deriving DecidableEq, Repr

/-- `row[metric]` for a canonical metric name. -/
def Record.val (r : Record) : Metric → ℚ
  | .revenue => r.revenue
  | .netIncome => r.netIncome
  | .assets => r.assets
  | .liabilities => r.liabilities
  | .cashFlow => r.cashFlow

/-- `BotContext` (lines 31-35). -/
structure BotContext where
  rows : List Record
  companies : List String
  years : List ℤ
deriving DecidableEq, Repr

/-- Stable insertion (descending by the key `f`): `x` goes in front of the
first element whose key is `≤ f x`, so among equal keys the inserted element
precedes the previously present ones. -/
def insertD {α β : Type*} [LinearOrder β] (f : α → β) (x : α) : List α → List α
  | [] => [x]
  | y :: ys => if f y ≤ f x then x :: y :: ys else y :: insertD f x ys

/-- Stable sort, descending by the key `f`: the model of Python
`sorted(l, key=f, reverse=True)` (which is stable).  An ascending
`sorted(l, key=f)` is `sortD` with the dual key. -/
def sortD {α β : Type*} [LinearOrder β] (f : α → β) : List α → List α
  | [] => []
  | x :: xs => insertD f x (sortD f xs)

/-- `sorted(set(...))` over integers: ascending sorted distinct values. -/
def sortedYears (l : List ℤ) : List ℤ :=
  sortD (fun y : ℤ => OrderDual.toDual y) l.dedup

/-- `sorted({...})` over strings: ascending sorted distinct values.
Python compares strings lexicographically by code point, which is the
lexicographic order on their character lists (sorting by the dual key
turns the descending `sortD` into an ascending sort). -/
def sortedStrings (l : List String) : List String :=
  sortD (fun s : String => OrderDual.toDual s.toList) l.dedup

/-- `load_data` after the CSV parsing (lines 52-54): the context built from a
row list — the rows as read, with the sorted distinct companies and years.
CSV reading itself is out-of-scope I/O; the rows are the parameter. -/
def loadCtx (rows : List Record) : BotContext :=
  { rows := rows,
    companies := sortedStrings (rows.map Record.company),
    years := sortedYears (rows.map Record.year) }

/-- `find_company` (lines 61-66): first company (in list order) whose
lowercased name is a substring of the normalized query. -/
def find_company (query : String) (companies : List String) : Option String :=
  companies.find? (fun company => substrB (lowerS company) (normalize_text query))

/-- Worker for `re.findall(r"20\d{2}", ·)`: scan left to right one character
at a time; at a `20dd` window emit its value and skip the three remaining
window characters (the regex engine consumes a match, so matches never
overlap).  `skip` counts characters of an emitted match still to consume. -/
def faSkip : ℕ → List Char → List ℤ
  | _, [] => []
  | skip + 1, _ :: rest => faSkip skip rest
  | 0, c1 :: rest =>
    match rest with
    | c2 :: c3 :: c4 :: _ =>
      if c1 = '2' ∧ c2 = '0' ∧ c3.isDigit ∧ c4.isDigit then
        (2000 + 10 * ((c3.toNat : ℤ) - 48) + ((c4.toNat : ℤ) - 48)) :: faSkip 3 rest
      else faSkip 0 rest
    | _ => []

/-- `re.findall(r"20\d{2}", ·)`: the integer values of the non-overlapping
left-to-right matches of a `20dd` window (`\d` as an ASCII digit). -/
def findall (cs : List Char) : List ℤ :=
  faSkip 0 cs

/-- `find_year` (lines 69-75): the first `20xx` token of the raw query, kept
only when it is one of the dataset's years (`re.search` returns the leftmost
match, i.e. the head of `findall`). -/
def find_year (query : String) (years : List ℤ) : Option ℤ :=
  match (findall query.toList).head? with
  | some y => if y ∈ years then some y else none
  | none => none

/-- The alias table ordered as `find_metric` scans it (line 80):
`sorted(METRIC_ALIASES.items(), key=len(alias), reverse=True)` — phrase
length descending, insertion order on ties (Python's sort is stable). -/
def sortedAliases : List (String × Metric) :=
  sortD (fun p : String × Metric => p.1.length) METRIC_ALIASES

/-- `find_metric` (lines 78-83): first alias (longest first) that occurs in
the normalized query. -/
def find_metric (query : String) : Option Metric :=
  (sortedAliases.find? (fun p => substrB p.1 (normalize_text query))).map Prod.snd

/-- Round-half-to-even on `ℚ`, the rounding of Python's `format(v, ",.0f")`. -/
def roundHalfEven (q : ℚ) : ℤ :=
  let f := ⌊q⌋
  if q - f < 1 / 2 then f
  else if 1 / 2 < q - f then f + 1
  else if f % 2 = 0 then f else f + 1

/-- Split a digit list (least significant first) into groups of three. -/
def chunk3 : List Char → List (List Char)
  | a :: b :: c :: d :: rest => [a, b, c] :: chunk3 (d :: rest)
  | l => [l]

/-- `f"{n:,}"` for an integer: decimal digits with a thousands separator
every three digits from the right. -/
def commaFmt (n : ℤ) : String :=
  (if n < 0 then "-" else "")
    ++ String.mk ((List.intercalate [','] (chunk3 (Nat.toDigits 10 n.natAbs).reverse)).reverse)

/-- `money` (lines 86-87): `f"${value:,.0f}M"`. -/
def money (value : ℚ) : String :=
  "$" ++ commaFmt (roundHalfEven value) ++ "M"

/-- `f"{x:.2f}"`: two decimal places (round-half-to-even on the hundredths). -/
def fmt2 (x : ℚ) : String :=
  let n := roundHalfEven (x * 100)
  (if n < 0 then "-" else "")
    ++ toString (n.natAbs / 100) ++ "."
    ++ (if n.natAbs % 100 < 10 then "0" else "") ++ toString (n.natAbs % 100)

/-- `get_row` (lines 90-94): first row matching the company
(case-insensitively) and the year. -/
def get_row (ctx : BotContext) (company : String) (year : ℤ) : Option Record :=
  ctx.rows.find? (fun r => decide (lowerS r.company = lowerS company ∧ r.year = year))

/-- The percent-change of the growth handler (line 148):
`(delta / old) * 100 if old else 0` — the division is guarded, `old = 0`
yields `0` instead of a division by zero. -/
def pctChange (old delta : ℚ) : ℚ :=
  if old ≠ 0 then delta / old * 100 else 0

/-- `help_text` (lines 185-199). -/
def help_text (ctx : BotContext) : String :=
  "Custom Financial Chatbot\n- Companies: " ++ String.intercalate ", " ctx.companies
    ++ "\n- Years: " ++ String.intercalate ", " (ctx.years.map toString)
    ++ "\n\nExamples:\n- Apple revenue 2025\n- compare net income 2024\n- top operating cash flow 2025\n- growth of Tesla revenue from 2023 to 2025\n- Microsoft summary\n- list companies\n- list years\n- exit"

/-- The fallback response (lines 179-182). -/
def fallbackMsg : String :=
  "I couldn't understand that. Type `help` for examples.\nTip: ask like 'Apple revenue 2025' or 'compare net income 2024'."

/-- Ranking guidance (line 112). -/
def rankGuide : String :=
  "Please specify both metric and year. Example: top revenue in 2025"

/-- Comparison guidance (line 121). -/
def compareGuide : String :=
  "For compare, include metric and year. Example: compare net income 2024"

/-- Growth guidance (lines 134-137; adjacent Python string literals
concatenate). -/
def growthGuide : String :=
  "For growth, include company, metric, and two years. Example: growth of Tesla revenue from 2023 to 2025"

/-- The ranking answer (line 115). -/
def topMsg (m : Metric) (y : ℤ) (r : Record) : String :=
  "Top " ++ metricName m ++ " in " ++ toString y ++ ": " ++ r.company
    ++ " with " ++ money (r.val m) ++ "."

/-- The comparison answer (lines 124-127): header plus one line per row in
the given (descending) order. -/
def compareMsg (m : Metric) (y : ℤ) (rowsSorted : List Record) : String :=
  String.intercalate "\n"
    ((metricName m ++ " in " ++ toString y ++ ":")
      :: rowsSorted.map (fun r => "- " ++ r.company ++ ": " ++ money (r.val m)))

/-- The point-lookup answer (line 163). -/
def lookupMsg (c : String) (m : Metric) (y : ℤ) (v : ℚ) : String :=
  c ++ " " ++ metricName m ++ " in " ++ toString y ++ ": " ++ money v ++ "."

/-- The growth answer (lines 145-153). -/
def growthMsg (c : String) (m : Metric) (y1 y2 : ℤ) (old neww : ℚ) : String :=
  let delta := neww - old
  let pct := pctChange old delta
  let sign := if 0 ≤ delta then "+" else "-"
  c ++ " " ++ metricName m ++ " changed from " ++ money old ++ " (" ++ toString y1
    ++ ") to " ++ money neww ++ " (" ++ toString y2 ++ "): "
    ++ sign ++ money |delta| ++ " (" ++ sign ++ fmt2 |pct| ++ "%)."

/-- The year-validation tail of the growth handler (lines 139-153), after the
two endpoint years have been chosen. -/
def growthKernel (ctx : BotContext) (c : String) (m : Metric) (y1 y2 : ℤ) : Option String :=
  if y1 ∉ ctx.years ∨ y2 ∉ ctx.years then
    some ("Available years are: " ++ String.intercalate ", " (ctx.years.map toString))
  else
    match get_row ctx c y1, get_row ctx c y2 with
    | some r1, some r2 => some (growthMsg c m y1 y2 (r1.val m) (r2.val m))
    | _, _ => some ("Missing data for " ++ c ++ " in " ++ toString y1 ++ " or " ++ toString y2 ++ ".")

/-- The summary answer (lines 170-177). -/
def summaryMsg (c : String) (latest : ℤ) (r : Record) : String :=
  c ++ " summary (" ++ toString latest ++ "):\n- Revenue: " ++ money r.revenue
    ++ "\n- Net Income: " ++ money r.netIncome
    ++ "\n- Total Assets: " ++ money r.assets
    ++ "\n- Total Liabilities: " ++ money r.liabilities
    ++ "\n- Operating Cash Flow: " ++ money r.cashFlow

/-- The ranking branch (lines 108-115), parameterized by the extracted
metric and year.  `Option.map` over `head?` models the `[0]` indexing: the
Python code raises exactly when the year's record list is empty.  (A found
year, always `20xx`, and a canonical metric name are never falsy, so
`if not metric or not year` is exactly the `none` test.) -/
def rankBranch (ctx : BotContext) (metric? : Option Metric) (year? : Option ℤ) : Option String :=
  match metric?, year? with
  | some metric, some year =>
    ((sortD (fun r : Record => r.val metric)
        (ctx.rows.filter (fun r => decide (r.year = year)))).head?).map (topMsg metric year)
  | _, _ => some rankGuide

/-- The comparison branch (lines 117-127). -/
def compareBranch (ctx : BotContext) (metric? : Option Metric) (year? : Option ℤ) : Option String :=
  match metric?, year? with
  | some metric, some year =>
    some (compareMsg metric year
      (sortD (fun r : Record => r.val metric)
        (ctx.rows.filter (fun r => decide (r.year = year)))))
  | _, _ => some compareGuide

/-- The growth branch (lines 129-153), parameterized by the extracted
company and metric and by `sorted(set(re.findall(...)))`: the guidance
answer unless a (truthy) company, a metric and at least two distinct years
are present; then the endpoints are the first (minimum) and last (maximum)
of the ascending year list. -/
def growthBranch (ctx : BotContext) (company? : Option String) (metric? : Option Metric)
    (years2 : List ℤ) : Option String :=
  match company?, metric?, years2 with
  | some company, some metric, y1 :: y2 :: rest =>
    if company = "" then some growthGuide
    else growthKernel ctx company metric y1 ((y2 :: rest).getLast (List.cons_ne_nil y2 rest))
  | _, _, _ => some growthGuide

/-- The final region of `handle_query` (lines 155-182): point lookup when
company, year and metric were all extracted (and the company string is
truthy), else the summary branch, else the fallback answer.  `none` models
the `ValueError` of `max(ctx.years)` on an empty year list. -/
def lookupOrSummary (ctx : BotContext) (q : String) (company? : Option String)
    (year? : Option ℤ) (metric? : Option Metric) : Option String :=
  match company?, year?, metric? with
  | some company, some year, some metric =>
    if company = "" then some fallbackMsg
    else
      some (match get_row ctx company year with
        | none => "No data for " ++ company ++ " in " ++ toString year ++ "."
        | some row => lookupMsg company metric year (row.val metric))
  | co, _, _ =>
    match co with
    | some company =>
      if company ≠ "" ∧ (Substr "summary" q ∨ Substr "overview" q) then
        match ctx.years.max? with
        | some latest =>
          some (match get_row ctx company latest with
            | none => "No summary available for " ++ company ++ "."
            | some row => summaryMsg company latest row)
        | none => none
      else some fallbackMsg
    | none => some fallbackMsg

/-- The body of `handle_query` after normalization (lines 99-182), on the
already-normalized text `q`.  `none` marks the two places where the Python
code can raise: indexing `[0]` into the ranking branch's sorted list when it
is empty, and `max(ctx.years)` in the summary branch when there are no
years.  Python truthiness of a company string (`if not company`,
`if company and ...`) is the explicit `= ""` tests. -/
def handleCore (ctx : BotContext) (q : String) : Option String :=
  if q = "help" ∨ q = "h" ∨ q = "?" then some (help_text ctx)
  else if Substr "list companies" q ∨ q = "companies" then
    some ("Companies: " ++ String.intercalate ", " ctx.companies)
  else if Substr "list years" q ∨ q = "years" then
    some ("Years: " ++ String.intercalate ", " (ctx.years.map toString))
  else if Substr "top" q ∨ Substr "highest" q then
    rankBranch ctx (find_metric q) (find_year q ctx.years)
  else if Substr "compare" q then
    compareBranch ctx (find_metric q) (find_year q ctx.years)
  else if Substr "growth" q ∨ Substr "change" q then
    growthBranch ctx (find_company q ctx.companies) (find_metric q)
      (sortedYears (findall q.toList))
  else
    lookupOrSummary ctx q (find_company q ctx.companies) (find_year q ctx.years) (find_metric q)

/-- `handle_query` (line 97-182): normalize, then dispatch. -/
def handle_query (ctx : BotContext) (query : String) : Option String :=
  handleCore ctx (normalize_text query)

/-- A record with the given company, year and metric values (file name
empty); used for the concrete datasets of the examples. -/
def mkRec (c : String) (y : ℤ) (rev ni asst lia cf : ℚ) : Record :=
  ⟨c, y, "", rev, ni, asst, lia, cf⟩

/-- The single-record dataset of the spec's point-lookup scenario. -/
def ctxApple : BotContext :=
  loadCtx [mkRec "Apple" 2025 400000 0 0 0 0]

/-- Three same-year records with revenue 500 / 900 / 300, the ranking
scenario of the spec. -/
def rankRows : List Record :=
  [mkRec "Aco" 2025 500 0 0 0 0, mkRec "Bco" 2025 900 0 0 0 0, mkRec "Cco" 2025 300 0 0 0 0]

/-- A dataset whose company names are nested ("App" is a substring of
"Apple"). -/
def ctxAA : BotContext :=
  loadCtx [mkRec "App" 2024 1 2 3 4 5, mkRec "Apple" 2025 6 7 8 9 10]

/-- A dataset whose single year 1999 does not match the `20xx` pattern. -/
def ctx1999 : BotContext :=
  loadCtx [mkRec "Acme" 1999 1 1 1 1 1]

/-- Apple has no record for the dataset's latest year 2025. -/
def ctxSum : BotContext :=
  loadCtx [mkRec "Apple" 2024 1 2 3 4 5, mkRec "Zeta" 2025 6 7 8 9 10]

/-- Acme's revenue is 0 in 2024 and 5 in 2025: the growth query divides by
the old value unless it is zero. -/
def ctxZero : BotContext :=
  loadCtx [mkRec "Acme" 2024 0 0 0 0 0, mkRec "Acme" 2025 5 0 0 0 0]

/-! ### Properties of the stable descending sort -/

theorem mem_insertD {α β : Type*} [LinearOrder β] (f : α → β) (x : α) :
    ∀ (l : List α) (a : α), a ∈ insertD f x l ↔ a = x ∨ a ∈ l := by
  intro l a
  induction l with
  | nil => simp [insertD]
  | cons y ys ih =>
    by_cases h : f y ≤ f x
    · simp [insertD, h]
    · simp only [insertD, if_neg h, List.mem_cons, ih]
      tauto

theorem mem_sortD {α β : Type*} [LinearOrder β] (f : α → β) :
    ∀ (l : List α) (a : α), a ∈ sortD f l ↔ a ∈ l := by
  intro l a
  induction l with
  | nil => simp [sortD]
  | cons x xs ih => simp [sortD, mem_insertD, ih]

theorem pairwise_insertD {α β : Type*} [LinearOrder β] (f : α → β) (x : α) :
    ∀ l : List α, l.Pairwise (fun a b => f b ≤ f a) →
      (insertD f x l).Pairwise (fun a b => f b ≤ f a) := by
  intro l
  induction l with
  | nil => intro _; simp [insertD]
  | cons y ys ih =>
    intro h
    rw [List.pairwise_cons] at h
    obtain ⟨hy, hys⟩ := h
    by_cases hle : f y ≤ f x
    · rw [insertD, if_pos hle, List.pairwise_cons]
      refine ⟨?_, List.pairwise_cons.mpr ⟨hy, hys⟩⟩
      intro b hb
      rcases List.mem_cons.mp hb with rfl | hb
      · exact hle
      · exact le_trans (hy b hb) hle
    · rw [insertD, if_neg hle, List.pairwise_cons]
      refine ⟨?_, ih hys⟩
      intro b hb
      rcases (mem_insertD f x ys b).mp hb with rfl | hb
      · exact le_of_lt (lt_of_not_le hle)
      · exact hy b hb

theorem sortD_pairwise {α β : Type*} [LinearOrder β] (f : α → β) :
    ∀ l : List α, (sortD f l).Pairwise (fun a b => f b ≤ f a) := by
  intro l
  induction l with
  | nil => simp [sortD]
  | cons x xs ih => exact pairwise_insertD f x _ ih

/-- The head of the stable descending sort: the input splits as
`l₁ ++ t :: l₂` with `t` the head of the sorted list, every element before
`t` strictly below it, every element after `t` at most it — i.e. `t` is the
first element of the input attaining the maximal key. -/
theorem sortD_head_split {α β : Type*} [LinearOrder β] (f : α → β) :
    ∀ l : List α, l ≠ [] → ∃ t l₁ l₂, l = l₁ ++ t :: l₂ ∧
      (sortD f l).head? = some t ∧
      (∀ a ∈ l₁, f a < f t) ∧ (∀ a ∈ l₂, f a ≤ f t) := by
  intro l
  induction l with
  | nil => intro h; exact absurd rfl h
  | cons x xs ih =>
    intro _
    cases xs with
    | nil =>
      exact ⟨x, [], [], by simp, by simp [sortD, insertD], by simp, by simp⟩
    | cons z zs =>
      obtain ⟨t, m₁, m₂, hsplit, hhead, hlt, hle⟩ := ih (List.cons_ne_nil z zs)
      obtain ⟨r, hr⟩ : ∃ r, sortD f (z :: zs) = t :: r := by
        cases hs : sortD f (z :: zs) with
        | nil => rw [hs] at hhead; simp at hhead
        | cons a r =>
          rw [hs] at hhead
          simp only [List.head?_cons, Option.some.injEq] at hhead
          exact ⟨r, by rw [hhead]⟩
      by_cases hc : f t ≤ f x
      · refine ⟨x, [], z :: zs, by simp, ?_, by simp, ?_⟩
        · show (insertD f x (sortD f (z :: zs))).head? = some x
          rw [hr, insertD, if_pos hc]
          simp
        · intro a ha
          rw [hsplit] at ha
          rcases List.mem_append.mp ha with h1 | h2
          · exact le_trans (le_of_lt (hlt a h1)) hc
          · rcases List.mem_cons.mp h2 with rfl | h3
            · exact hc
            · exact le_trans (hle a h3) hc
      · refine ⟨t, x :: m₁, m₂, by rw [hsplit]; rfl, ?_, ?_, hle⟩
        · show (insertD f x (sortD f (z :: zs))).head? = some t
          rw [hr, insertD, if_neg hc]
          simp
        · intro a ha
          rcases List.mem_cons.mp ha with rfl | h1
          · exact lt_of_not_le hc
          · exact hlt a h1

/-- `find?` on a list sorted descending by a key returns an element whose key
is maximal among all elements satisfying the predicate. -/
theorem find?_max_of_pairwise {α β : Type*} [LinearOrder β] (f : α → β) (p : α → Bool) :
    ∀ l : List α, l.Pairwise (fun a b => f b ≤ f a) → ∀ x, l.find? p = some x →
      ∀ y ∈ l, p y = true → f y ≤ f x := by
  intro l
  induction l with
  | nil => intro _ x hx; simp [List.find?] at hx
  | cons a t ih =>
    intro hp x hx y hy hpy
    rw [List.pairwise_cons] at hp
    obtain ⟨ha, ht⟩ := hp
    cases hpa : p a with
    | true =>
      rw [List.find?_cons_of_pos _ hpa, Option.some.injEq] at hx
      subst hx
      rcases List.mem_cons.mp hy with rfl | hy'
      · exact le_refl _
      · exact ha y hy'
    | false =>
      rw [List.find?_cons_of_neg _ (by simp [hpa])] at hx
      rcases List.mem_cons.mp hy with rfl | hy'
      · rw [hpy] at hpa; cases hpa
      · exact ih ht x hx y hy' hpy

/-- `find?` returns the given element when it satisfies the predicate and is
the only element of the list doing so. -/
theorem find?_first_eq {α : Type*} (p : α → Bool) :
    ∀ l : List α, ∀ x ∈ l, p x = true → (∀ y ∈ l, p y = true → y = x) →
      l.find? p = some x := by
  intro l
  induction l with
  | nil => intro x hx; simp at hx
  | cons a t ih =>
    intro x hx hpx huniq
    cases hpa : p a with
    | true =>
      rw [List.find?_cons_of_pos _ hpa]
      exact congrArg some (huniq a (List.mem_cons_self a t) hpa)
    | false =>
      rw [List.find?_cons_of_neg _ (by simp [hpa])]
      rcases List.mem_cons.mp hx with rfl | hx'
      · rw [hpx] at hpa; cases hpa
      · exact ih x hx' hpx (fun y hy hpy => huniq y (List.mem_cons_of_mem a hy) hpy)

/-! ### The ascending sorted-distinct lists of `loadCtx` and the growth years -/

theorem mem_sortedYears (l : List ℤ) (y : ℤ) : y ∈ sortedYears l ↔ y ∈ l := by
  rw [sortedYears, mem_sortD, List.mem_dedup]

theorem mem_sortedStrings (l : List String) (s : String) : s ∈ sortedStrings l ↔ s ∈ l := by
  rw [sortedStrings, mem_sortD, List.mem_dedup]

theorem sortedYears_pairwise (l : List ℤ) : (sortedYears l).Pairwise (· ≤ ·) := by
  have h := sortD_pairwise (fun y : ℤ => OrderDual.toDual y) l.dedup
  exact h.imp (fun hab => OrderDual.toDual_le_toDual.mp hab)

theorem pairwise_le_getLast :
    ∀ (l : List ℤ), l.Pairwise (· ≤ ·) → ∀ (hne : l ≠ []) (z : ℤ), z ∈ l → z ≤ l.getLast hne := by
  intro l
  induction l with
  | nil => intro _ hne; exact absurd rfl hne
  | cons a t ih =>
    intro hp hne z hz
    rw [List.pairwise_cons] at hp
    obtain ⟨ha, ht⟩ := hp
    cases t with
    | nil =>
      simp only [List.mem_singleton] at hz
      subst hz
      simp [List.getLast]
    | cons b s =>
      rw [List.getLast_cons (List.cons_ne_nil b s)]
      rcases List.mem_cons.mp hz with rfl | hz'
      · exact le_trans (ha b (List.mem_cons_self b s))
          (ih ht (List.cons_ne_nil b s) b (List.mem_cons_self b s))
      · exact ih ht (List.cons_ne_nil b s) z hz'

/-! ### Rounding -/

/-- `roundHalfEven` rounds to a nearest integer: the result is within one
half of the argument. -/
theorem roundHalfEven_nearest (q : ℚ) : |q - (roundHalfEven q : ℚ)| ≤ 1 / 2 := by
  have hfl : (⌊q⌋ : ℚ) ≤ q := Int.floor_le q
  have hfu : q < ⌊q⌋ + 1 := Int.lt_floor_add_one q
  rw [roundHalfEven]
  split
  · rename_i h1
    rw [abs_le]
    constructor <;> linarith
  · split
    · rename_i h1 h2
      rw [abs_le]
      push_cast
      constructor <;> linarith
    · rename_i h1 h2
      have heq : q - (⌊q⌋ : ℚ) = 1 / 2 := le_antisymm (not_lt.mp h2) (not_lt.mp h1)
      split
      · rw [abs_le]
        constructor <;> linarith
      · rw [abs_le]
        push_cast
        constructor <;> linarith

/-! ### The year extractor and `findall` -/

theorem find_year_mem {q : String} {years : List ℤ} {y : ℤ}
    (h : find_year q years = some y) : y ∈ years := by
  rw [find_year] at h
  split at h
  · split at h
    · rename_i hz
      cases h
      exact hz
    · cases h
  · cases h

/-- Whenever a `20dd` window occurs anywhere in the text, the scan finds at
least one match. -/
theorem faSkip_ne_nil :
    ∀ (skip : ℕ) (cs : List Char), skip = 0 →
      (∃ pre d3 d4 post, d3.isDigit = true ∧ d4.isDigit = true ∧
        cs = pre ++ '2' :: '0' :: d3 :: d4 :: post) →
      faSkip skip cs ≠ [] := by
  intro skip cs
  induction skip, cs using faSkip.induct with
  | case1 s =>
    rintro - ⟨pre, d3, d4, post, -, -, heq⟩
    cases pre <;> simp at heq
  | case2 skip c rest ih =>
    intro h
    exact absurd h (Nat.succ_ne_zero skip)
  | case3 c1 c2 c3 c4 tail hcond ih =>
    rintro - -
    simp only [faSkip, if_pos hcond]
    exact List.cons_ne_nil _ _
  | case4 c1 c2 c3 c4 tail hcond ih =>
    rintro - ⟨pre, d3, d4, post, hd3, hd4, heq⟩
    cases pre with
    | nil =>
      simp only [List.nil_append, List.cons.injEq] at heq
      obtain ⟨h1, h2, h3, h4, -⟩ := heq
      exact absurd ⟨h1, h2, h3 ▸ hd3, h4 ▸ hd4⟩ hcond
    | cons p pre' =>
      simp only [List.cons_append, List.cons.injEq] at heq
      obtain ⟨-, heq'⟩ := heq
      simp only [faSkip, if_neg hcond]
      exact ih rfl ⟨pre', d3, d4, post, hd3, hd4, heq'⟩
  | case5 c1 rest hshort =>
    rintro - ⟨pre, d3, d4, post, hd3, hd4, heq⟩
    cases pre with
    | nil =>
      simp only [List.nil_append, List.cons.injEq] at heq
      obtain ⟨-, heq'⟩ := heq
      exact absurd heq' (fun h => hshort _ _ _ _ h)
    | cons p pre' =>
      simp only [List.cons_append, List.cons.injEq] at heq
      obtain ⟨-, heq'⟩ := heq
      rcases pre' with - | ⟨e1, pre2⟩
      · exact absurd (by simpa using heq') (fun h => hshort '2' '0' d3 (d4 :: post) h)
      · rcases pre2 with - | ⟨e2, pre3⟩
        · exact absurd (by simpa using heq') (fun h => hshort e1 '2' '0' (d3 :: d4 :: post) h)
        · rcases pre3 with - | ⟨e3, pre4⟩
          · exact absurd (by simpa using heq')
              (fun h => hshort e1 e2 '2' ('0' :: d3 :: d4 :: post) h)
          · exact absurd (by simpa using heq')
              (fun h => hshort e1 e2 e3 (pre4 ++ '2' :: '0' :: d3 :: d4 :: post) h)

/-! ### Facts about contexts built by `load_data` -/

/-- Every year of a loaded context's year list comes from some row. -/
theorem loadCtx_year_row {rows : List Record} {y : ℤ}
    (h : y ∈ (loadCtx rows).years) : ∃ r ∈ rows, r.year = y := by
  have h' : y ∈ sortedYears (rows.map Record.year) := h
  rw [mem_sortedYears, List.mem_map] at h'
  exact h'

/-- Every company of a loaded context's company list comes from some row. -/
theorem loadCtx_company_row {rows : List Record} {c : String}
    (h : c ∈ (loadCtx rows).companies) : ∃ r ∈ rows, r.company = c := by
  have h' : c ∈ sortedStrings (rows.map Record.company) := h
  rw [mem_sortedStrings, List.mem_map] at h'
  exact h'

theorem max?_isSome_of_ne_nil (l : List ℤ) (h : l ≠ []) : l.max?.isSome = true := by
  cases l with
  | nil => exact absurd rfl h
  | cons a t => simp [List.max?]

/-- The growth tail always answers: every arm is `some`. -/
theorem growthKernel_isSome (ctx : BotContext) (c : String) (m : Metric) (y1 y2 : ℤ) :
    (growthKernel ctx c m y1 y2).isSome = true := by
  rw [growthKernel]
  split
  · rfl
  · split
    · rfl
    · rfl

theorem compareBranch_isSome (ctx : BotContext) (mo : Option Metric) (yo : Option ℤ) :
    (compareBranch ctx mo yo).isSome = true := by
  unfold compareBranch
  split <;> rfl

theorem growthBranch_isSome (ctx : BotContext) (co : Option String) (mo : Option Metric)
    (ys : List ℤ) : (growthBranch ctx co mo ys).isSome = true := by
  unfold growthBranch
  split
  · split
    · rfl
    · exact growthKernel_isSome _ _ _ _ _
  · rfl

/-- On a loaded context the ranking branch with an extracted year is safe:
the year occurs in some row, so the sorted filtered list is nonempty. -/
theorem rankBranch_some_isSome {rows : List Record} {y : ℤ} (metric : Metric)
    (hy : y ∈ (loadCtx rows).years) :
    (rankBranch (loadCtx rows) (some metric) (some y)).isSome = true := by
  simp only [rankBranch]
  obtain ⟨r, hr, hry⟩ := loadCtx_year_row hy
  have hmem : r ∈ (loadCtx rows).rows.filter (fun r => decide (r.year = y)) :=
    List.mem_filter.mpr ⟨hr, by simp [hry]⟩
  have hmem' := (mem_sortD (fun r : Record => r.val metric) _ r).mpr hmem
  cases hs : sortD (fun r : Record => r.val metric)
      ((loadCtx rows).rows.filter (fun r => decide (r.year = y))) with
  | nil => rw [hs] at hmem'; cases hmem'
  | cons a t => rfl

theorem lookupOrSummary_isSome (ctx : BotContext) (q : String) (co : Option String)
    (yo : Option ℤ) (mo : Option Metric)
    (h : ∀ c, co = some c → ctx.years ≠ []) :
    (lookupOrSummary ctx q co yo mo).isSome = true := by
  cases co with
  | none => cases yo <;> cases mo <;> simp [lookupOrSummary]
  | some company =>
    have hyne := h company rfl
    obtain ⟨latest, hmax⟩ := Option.isSome_iff_exists.mp (max?_isSome_of_ne_nil _ hyne)
    cases yo with
    | none =>
      cases mo with
      | none =>
        simp only [lookupOrSummary]
        split
        · rw [hmax]; rfl
        · rfl
      | some m =>
        simp only [lookupOrSummary]
        split
        · rw [hmax]; rfl
        · rfl
    | some y =>
      cases mo with
      | none =>
        simp only [lookupOrSummary]
        split
        · rw [hmax]; rfl
        · rfl
      | some m =>
        simp only [lookupOrSummary]
        split <;> rfl

/-- C1: for every dataset context produced by `load_data` and every query
string, `handle_query` returns a response string and never raises: the
ranking branch's `[0]` indexing is safe because `find_year` only returns
years of the context's year list and every such year occurs in at least one
record, and the summary branch's `max(ctx.years)` is safe because an
extracted company guarantees a nonempty dataset. -/
theorem handle_query_never_fails (rows : List Record) (query : String) :
    ∃ s : String, handle_query (loadCtx rows) query = some s := by
  rw [← Option.isSome_iff_exists, handle_query, handleCore]
  split
  · rfl
  split
  · rfl
  split
  · rfl
  split
  · -- ranking branch
    cases hfm : find_metric (normalize_text query) with
    | none =>
      cases find_year (normalize_text query) (loadCtx rows).years <;> simp [rankBranch]
    | some metric =>
      cases hfy : find_year (normalize_text query) (loadCtx rows).years with
      | none => simp [rankBranch]
      | some year => exact rankBranch_some_isSome metric (find_year_mem hfy)
  split
  · exact compareBranch_isSome _ _ _
  split
  · exact growthBranch_isSome _ _ _ _
  · -- lookup / summary / fallback region
    apply lookupOrSummary_isSome
    intro c hc
    have hcm : c ∈ (loadCtx rows).companies := List.mem_of_find?_eq_some hc
    obtain ⟨r, hr, -⟩ := loadCtx_company_row hcm
    exact List.ne_nil_of_mem ((mem_sortedYears _ _).mpr (List.mem_map.mpr ⟨r, hr, rfl⟩))

section ConcreteEvaluation

/- Batteries marks the rational arithmetic operations `@[irreducible]`;
re-allowing their unfolding lets `decide` evaluate the embedded handler on
the concrete example datasets.  This only changes elaborator unfolding
hints; every proof still goes through the kernel. -/
set_option allowUnsafeReducibility true
attribute [local semireducible] Rat.add Rat.sub Rat.mul Rat.div Rat.inv Rat.ofScientific

/-- C2: when company, year and metric are all extracted (the company string
being nonempty, i.e. truthy) and no earlier keyword branch fires, Point
Lookup answers "{company} {metric} in {year}: {formatted value}." from the
matching record, and a no-data message when no record matches the
(company, year) pair; in particular the query "Apple revenue 2025" on a
dataset holding (Apple, 2025) with Total Revenue 400000 answers exactly
"Apple Total Revenue (USD millions) in 2025: $400,000M.". -/
theorem point_lookup_answer :
    (∀ (ctx : BotContext) (query : String) (c : String) (y : ℤ) (m : Metric),
      ¬(normalize_text query = "help" ∨ normalize_text query = "h" ∨
          normalize_text query = "?") →
      ¬(Substr "list companies" (normalize_text query) ∨
          normalize_text query = "companies") →
      ¬(Substr "list years" (normalize_text query) ∨ normalize_text query = "years") →
      ¬(Substr "top" (normalize_text query) ∨ Substr "highest" (normalize_text query)) →
      ¬Substr "compare" (normalize_text query) →
      ¬(Substr "growth" (normalize_text query) ∨ Substr "change" (normalize_text query)) →
      find_company (normalize_text query) ctx.companies = some c →
      find_year (normalize_text query) ctx.years = some y →
      find_metric (normalize_text query) = some m →
      c ≠ "" →
      ((∀ row, get_row ctx c y = some row →
          handle_query ctx query = some (lookupMsg c m y (row.val m))) ∧
        (get_row ctx c y = none →
          handle_query ctx query = some ("No data for " ++ c ++ " in " ++ toString y ++ ".")))) ∧
    handle_query ctxApple "Apple revenue 2025" =
      some "Apple Total Revenue (USD millions) in 2025: $400,000M." := by
  constructor
  · intro ctx query c y m h1 h2 h3 h4 h5 h6 hfc hfy hfm hc
    have hq : handle_query ctx query =
        lookupOrSummary ctx (normalize_text query) (some c) (some y) (some m) := by
      rw [handle_query, handleCore, if_neg h1, if_neg h2, if_neg h3, if_neg h4,
        if_neg h5, if_neg h6, hfc, hfy, hfm]
    constructor
    · intro row hrow
      rw [hq]
      simp only [lookupOrSummary]
      rw [if_neg hc, hrow]
    · intro hnone
      rw [hq]
      simp only [lookupOrSummary]
      rw [if_neg hc, hnone]
  · decide

/-- C2 witness: the concrete Apple scenario instantiates the general point
lookup statement. -/
theorem point_lookup_answer_witness :
    (find_company (normalize_text "Apple revenue 2025") ctxApple.companies = some "Apple" ∧
      find_year (normalize_text "Apple revenue 2025") ctxApple.years = some 2025 ∧
      find_metric (normalize_text "Apple revenue 2025") = some Metric.revenue ∧
      get_row ctxApple "Apple" 2025 = some (mkRec "Apple" 2025 400000 0 0 0 0)) ∧
    handle_query ctxApple "Apple revenue 2025" =
      some (lookupMsg "Apple" Metric.revenue 2025
        ((mkRec "Apple" 2025 400000 0 0 0 0).val Metric.revenue)) :=
  ⟨⟨by decide, by decide, by decide, by decide⟩,
    (point_lookup_answer.1 ctxApple "Apple revenue 2025" "Apple" 2025 Metric.revenue
      (by decide) (by decide) (by decide) (by decide) (by decide) (by decide)
      (by decide) (by decide) (by decide) (by decide)).1 _ (by decide)⟩

/-- C6: in the growth handler the percent change is 0 when the old value is
exactly zero (the division is never evaluated then, so no division-by-zero
error occurs — in the model `pctChange` is simply total), and otherwise it
equals (new − old) / old × 100; concretely, a growth query whose old value
is 0 answers with "+0.00%" instead of failing. -/
theorem growth_pct_zero_guard :
    (∀ delta : ℚ, pctChange 0 delta = 0) ∧
    (∀ old neww : ℚ, old ≠ 0 → pctChange old (neww - old) = (neww - old) / old * 100) ∧
    handle_query ctxZero "growth of acme revenue from 2024 to 2025" =
      some "Acme Total Revenue (USD millions) changed from $0M (2024) to $5M (2025): +$5M (+0.00%)." :=
  ⟨fun _ => by simp [pctChange],
   fun old neww h => by simp [pctChange, h],
   by decide⟩

/-- C6 witness: the nonzero-old-value clause at old = 100, new = 150. -/
theorem growth_pct_zero_guard_witness :
    (100 : ℚ) ≠ 0 ∧ pctChange 100 (150 - 100) = ((150 : ℚ) - 100) / 100 * 100 :=
  ⟨by norm_num, growth_pct_zero_guard.2.1 100 150 (by norm_num)⟩

/-- C9: `money` renders every value as a dollar string built from a nearest
integer (the rounding error is at most one half), with thousands separators
and an "M" suffix; in particular money(12345.6) = "$12,346M". -/
theorem money_nearest_million :
    (∀ v : ℚ, money v = "$" ++ commaFmt (roundHalfEven v) ++ "M" ∧
      |v - (roundHalfEven v : ℚ)| ≤ 1 / 2) ∧
    money (12345.6 : ℚ) = "$12,346M" :=
  ⟨fun v => ⟨rfl, roundHalfEven_nearest v⟩, by decide⟩

/-- C10: when the summary branch fires (company extracted and truthy, point
lookup not applicable because year or metric is missing, query mentions
"summary" or "overview") but the company has no record for the dataset's
maximum year, the answer is "No summary available for {company}." — and the
context, being a value the pure handler never rebuilds, is left unchanged. -/
theorem summary_missing_latest :
    ∀ (ctx : BotContext) (query : String) (c : String) (latest : ℤ),
      ¬(normalize_text query = "help" ∨ normalize_text query = "h" ∨
          normalize_text query = "?") →
      ¬(Substr "list companies" (normalize_text query) ∨
          normalize_text query = "companies") →
      ¬(Substr "list years" (normalize_text query) ∨ normalize_text query = "years") →
      ¬(Substr "top" (normalize_text query) ∨ Substr "highest" (normalize_text query)) →
      ¬Substr "compare" (normalize_text query) →
      ¬(Substr "growth" (normalize_text query) ∨ Substr "change" (normalize_text query)) →
      find_company (normalize_text query) ctx.companies = some c →
      (find_year (normalize_text query) ctx.years = none ∨
        find_metric (normalize_text query) = none) →
      c ≠ "" →
      (Substr "summary" (normalize_text query) ∨ Substr "overview" (normalize_text query)) →
      ctx.years.max? = some latest →
      get_row ctx c latest = none →
      handle_query ctx query = some ("No summary available for " ++ c ++ ".") := by
  intro ctx query c latest h1 h2 h3 h4 h5 h6 hfc hmiss hc hsum hmax hrow
  have hq : handle_query ctx query =
      lookupOrSummary ctx (normalize_text query) (some c)
        (find_year (normalize_text query) ctx.years) (find_metric (normalize_text query)) := by
    rw [handle_query, handleCore, if_neg h1, if_neg h2, if_neg h3, if_neg h4,
      if_neg h5, if_neg h6, hfc]
  rcases hmiss with hfy | hfm
  · rw [hq, hfy]
    cases hfm2 : find_metric (normalize_text query) with
    | none =>
      simp only [lookupOrSummary]
      rw [if_pos ⟨hc, hsum⟩, hmax]
      simp only [hrow]
    | some m =>
      simp only [lookupOrSummary]
      rw [if_pos ⟨hc, hsum⟩, hmax]
      simp only [hrow]
  · rw [hq, hfm]
    cases hfy2 : find_year (normalize_text query) ctx.years with
    | none =>
      simp only [lookupOrSummary]
      rw [if_pos ⟨hc, hsum⟩, hmax]
      simp only [hrow]
    | some y =>
      simp only [lookupOrSummary]
      rw [if_pos ⟨hc, hsum⟩, hmax]
      simp only [hrow]

/-- C10 witness: Apple has a 2024 record only, the dataset's latest year is
2025, and "apple summary" answers the no-summary message. -/
theorem summary_missing_latest_witness :
    (find_company (normalize_text "apple summary") ctxSum.companies = some "Apple" ∧
      find_year (normalize_text "apple summary") ctxSum.years = none ∧
      Substr "summary" (normalize_text "apple summary") ∧
      ctxSum.years.max? = some 2025 ∧
      get_row ctxSum "Apple" 2025 = none) ∧
    handle_query ctxSum "apple summary" = some ("No summary available for " ++ "Apple" ++ ".") :=
  ⟨⟨by decide, by decide, by decide, by decide, by decide⟩,
    summary_missing_latest ctxSum "apple summary" "Apple" 2025
      (by decide) (by decide) (by decide) (by decide) (by decide) (by decide)
      (by decide) (Or.inl (by decide)) (by decide) (Or.inl (by decide))
      (by decide) (by decide)⟩

/-- C4: the metric extractor scans aliases in order of descending phrase
length, so the alias it matches is one of maximal length among all aliases
present in the query (longer aliases beat shorter ones; "net income"
resolves to the net-income metric, not what "income" alone would give). -/
theorem find_metric_longest_alias :
    (∀ (q : String) (m : Metric), find_metric q = some m →
      ∃ a : String, (a, m) ∈ METRIC_ALIASES ∧ Substr a (normalize_text q) ∧
        ∀ p ∈ METRIC_ALIASES, Substr p.1 (normalize_text q) → p.1.length ≤ a.length) ∧
    find_metric "net income 2024" = some Metric.netIncome := by
  constructor
  · intro q m hfm
    rw [find_metric] at hfm
    obtain ⟨pair, hfind, hsnd⟩ := Option.map_eq_some'.mp hfm
    have hmem : pair ∈ METRIC_ALIASES :=
      (mem_sortD (fun p : String × Metric => p.1.length) METRIC_ALIASES pair).mp
        (List.mem_of_find?_eq_some hfind)
    have hpeta : (pair.1, m) = pair := by rw [← hsnd]
    refine ⟨pair.1, by rw [hpeta]; exact hmem, ?_, ?_⟩
    · have hp := List.find?_some hfind
      simp only [substrB] at hp
      exact of_decide_eq_true hp
    · intro p hp hsub
      exact find?_max_of_pairwise (fun p : String × Metric => p.1.length)
        (fun p => substrB p.1 (normalize_text q)) sortedAliases
        (sortD_pairwise _ METRIC_ALIASES) pair hfind p
        ((mem_sortD _ METRIC_ALIASES p).mpr hp) (decide_eq_true hsub)
  · decide

/-- C4 witness: the general statement instantiated at "net income 2024". -/
theorem find_metric_longest_alias_witness :
    find_metric "net income 2024" = some Metric.netIncome ∧
      ∃ a : String, (a, Metric.netIncome) ∈ METRIC_ALIASES ∧
        Substr a (normalize_text "net income 2024") ∧
        ∀ p ∈ METRIC_ALIASES, Substr p.1 (normalize_text "net income 2024") →
          p.1.length ≤ a.length :=
  ⟨find_metric_longest_alias.2,
    find_metric_longest_alias.1 "net income 2024" Metric.netIncome
      find_metric_longest_alias.2⟩

/-- C7 counterexample: in the loaded two-company dataset with companies
"App" and "Apple", `find_company` on the query "Apple" — exactly the
company name "Apple" — returns "App" (the alphabetically first company
whose lowercased name is a substring), not "Apple". -/
theorem find_company_solely_name_cex :
    "Apple" ∈ ctxAA.companies ∧
    find_company "Apple" ctxAA.companies = some "App" ∧
    find_company "Apple" ctxAA.companies ≠ some "Apple" :=
  ⟨by decide, by decide, by decide⟩

/-- C7 (amended): `find_company` on a query that normalizes to exactly C's
lowercased name returns C, provided no other listed company's lowercased
name occurs as a substring of C's lowercased name (the original claim fails
when an alphabetically earlier company's name is a substring of C's). -/
theorem find_company_solely_name (companies : List String) (C q : String)
    (hC : C ∈ companies)
    (hq : normalize_text q = lowerS C)
    (huniq : ∀ D ∈ companies, Substr (lowerS D) (lowerS C) → D = C) :
    find_company q companies = some C := by
  rw [find_company]
  refine find?_first_eq _ companies C hC ?_ ?_
  · rw [hq]
    exact decide_eq_true (List.infix_refl _)
  · intro D hD hPD
    rw [hq] at hPD
    exact huniq D hD (of_decide_eq_true hPD)

/-- C7 witness: the amended statement at the companies ["Apple", "Zeta"] and
the query "APPLE". -/
theorem find_company_solely_name_witness :
    ("Apple" ∈ ["Apple", "Zeta"] ∧ normalize_text "APPLE" = lowerS "Apple" ∧
      (∀ D ∈ ["Apple", "Zeta"], Substr (lowerS D) (lowerS "Apple") → D = "Apple")) ∧
    find_company "APPLE" ["Apple", "Zeta"] = some "Apple" :=
  ⟨⟨by decide, by decide, by decide⟩,
    find_company_solely_name ["Apple", "Zeta"] "Apple" "APPLE"
      (by decide) (by decide) (by decide)⟩

/-- C8 counterexample: the year 1999 is present in the loaded dataset, the
query "1999" contains it as a 4-digit substring and no other year, yet the
extractor returns `none` — the hard-coded pattern only matches `20xx`. -/
theorem find_year_dataset_cex :
    (1999 : ℤ) ∈ ctx1999.years ∧ find_year "1999" ctx1999.years = none := by
  decide

theorem find_year_eq_some {q : String} {years : List ℤ} {y : ℤ}
    (h : (findall q.toList).head? = some y) (hy : y ∈ years) :
    find_year q years = some y := by
  simp only [find_year, h, if_pos hy]

/-- C8 (amended): for a year of the form 20xx (the original claim fails for
other dataset years, e.g. 1999): if Y = 2000 + 10a + b is a dataset year and
its digit string occurs in the query, which contains no other `20xx` token,
the extractor returns Y; and whenever the first `20xx` token of a query is
not in the dataset's year set, it returns `none`. -/
theorem find_year_spec :
    (∀ (years : List ℤ) (q : String) (a b : ℕ) (Y : ℤ),
      Y = 2000 + 10 * (a : ℤ) + b → a ≤ 9 → b ≤ 9 → Y ∈ years →
      ('2' :: '0' :: Nat.digitChar a :: Nat.digitChar b :: []) <:+: q.toList →
      (∀ z ∈ findall q.toList, z = Y) →
      find_year q years = some Y) ∧
    (∀ (q : String) (years : List ℤ) (y : ℤ),
      (findall q.toList).head? = some y → y ∉ years → find_year q years = none) := by
  constructor
  · intro years q a b Y hY ha hb hmem hinf hall
    have hd3 : (Nat.digitChar a).isDigit = true := by interval_cases a <;> decide
    have hd4 : (Nat.digitChar b).isDigit = true := by interval_cases b <;> decide
    obtain ⟨s, t, hst⟩ := hinf
    have hform : q.toList = s ++ '2' :: '0' :: Nat.digitChar a :: Nat.digitChar b :: t := by
      rw [← hst]
      simp
    have hne : findall q.toList ≠ [] :=
      faSkip_ne_nil 0 q.toList rfl ⟨s, Nat.digitChar a, Nat.digitChar b, t, hd3, hd4, hform⟩
    cases hfa : findall q.toList with
    | nil => exact absurd hfa hne
    | cons z zs =>
      have hz : z = Y := hall z (by rw [hfa]; exact List.mem_cons_self z zs)
      refine find_year_eq_some ?_ hmem
      rw [hfa, List.head?_cons, hz]
  · intro q years y hhead hnot
    simp only [find_year, hhead, if_neg hnot]

/-- C8 witness: part one at the dataset years [2025] and the query "x2025y",
part two follows with the same token against the year set [2030]. -/
theorem find_year_spec_witness :
    ((2025 : ℤ) ∈ [(2025 : ℤ)] ∧
      ('2' :: '0' :: Nat.digitChar 2 :: Nat.digitChar 5 :: []) <:+: "x2025y".toList ∧
      (∀ z ∈ findall "x2025y".toList, z = 2025) ∧
      find_year "x2025y" [(2025 : ℤ)] = some 2025) ∧
    ((findall "x2025y".toList).head? = some 2025 ∧ (2025 : ℤ) ∉ [(2030 : ℤ)] ∧
      find_year "x2025y" [(2030 : ℤ)] = none) :=
  ⟨⟨by decide, by decide, by decide,
      find_year_spec.1 [(2025 : ℤ)] "x2025y" 2 5 2025 (by decide) (by decide) (by decide)
        (by decide) (by decide) (by decide)⟩,
    ⟨by decide, by decide,
      find_year_spec.2 "x2025y" [(2030 : ℤ)] 2025 (by decide) (by decide)⟩⟩

/-- C3: the ranking handler reports the record with the maximum metric value
among the records of the extracted year, and on ties the record that comes
first in dataset order (the descending sort is stable): the year\'s records
split as l₁ ++ t :: l₂ with every record before t strictly below t, every
record after t at most t, and the answer built from t.  Concretely, with
values 500 / 900 / 300 the handler reports the 900 record. -/
theorem ranking_reports_first_max :
    (∀ (rows : List Record) (query : String) (m : Metric) (y : ℤ),
      ¬(normalize_text query = "help" ∨ normalize_text query = "h" ∨
          normalize_text query = "?") →
      ¬(Substr "list companies" (normalize_text query) ∨
          normalize_text query = "companies") →
      ¬(Substr "list years" (normalize_text query) ∨ normalize_text query = "years") →
      (Substr "top" (normalize_text query) ∨ Substr "highest" (normalize_text query)) →
      find_metric (normalize_text query) = some m →
      find_year (normalize_text query) (loadCtx rows).years = some y →
      ∃ t l₁ l₂,
        rows.filter (fun r => decide (r.year = y)) = l₁ ++ t :: l₂ ∧
        (∀ a ∈ l₁, a.val m < t.val m) ∧
        (∀ a ∈ l₂, a.val m ≤ t.val m) ∧
        handle_query (loadCtx rows) query = some (topMsg m y t)) ∧
    handle_query (loadCtx rankRows) "top revenue 2025" =
      some "Top Total Revenue (USD millions) in 2025: Bco with $900M." := by
  constructor
  · intro rows query m y h1 h2 h3 h4 hfm hfy
    have hy := find_year_mem hfy
    obtain ⟨r, hr, hry⟩ := loadCtx_year_row hy
    have hne : rows.filter (fun r => decide (r.year = y)) ≠ [] :=
      List.ne_nil_of_mem (List.mem_filter.mpr ⟨hr, by simp [hry]⟩)
    obtain ⟨t, l₁, l₂, hsplit, hhead, hlt, hle⟩ :=
      sortD_head_split (fun r : Record => r.val m) _ hne
    refine ⟨t, l₁, l₂, hsplit, hlt, hle, ?_⟩
    rw [handle_query, handleCore, if_neg h1, if_neg h2, if_neg h3, if_pos h4, hfm, hfy]
    simp only [rankBranch, loadCtx]
    rw [hhead]
    rfl
  · decide

/-- C3 witness: the 500 / 900 / 300 ranking scenario instantiates the
general statement. -/
theorem ranking_reports_first_max_witness :
    ((Substr "top" (normalize_text "top revenue 2025") ∨
        Substr "highest" (normalize_text "top revenue 2025")) ∧
      find_metric (normalize_text "top revenue 2025") = some Metric.revenue ∧
      find_year (normalize_text "top revenue 2025") (loadCtx rankRows).years = some 2025) ∧
    (∃ t l₁ l₂,
      rankRows.filter (fun r => decide (r.year = 2025)) = l₁ ++ t :: l₂ ∧
      (∀ a ∈ l₁, a.val Metric.revenue < t.val Metric.revenue) ∧
      (∀ a ∈ l₂, a.val Metric.revenue ≤ t.val Metric.revenue) ∧
      handle_query (loadCtx rankRows) "top revenue 2025" =
        some (topMsg Metric.revenue 2025 t)) :=
  ⟨⟨Or.inl (by decide), by decide, by decide⟩,
    ranking_reports_first_max.1 rankRows "top revenue 2025" Metric.revenue 2025
      (by decide) (by decide) (by decide) (Or.inl (by decide)) (by decide) (by decide)⟩

/-- C5: the growth handler collects every `20xx` token of the (normalized)
query via `findall` — not limited to dataset years — deduplicates and sorts
them; its endpoints, the head y1 and the last yN of that sorted list, are
collected tokens with y1 ≤ z ≤ yN for every collected token z (so y1 and yN
are the minimum and maximum and the intermediate years are discarded: the
rest of the branch is exactly `growthKernel` applied to y1 and yN alone);
and if either endpoint is not a dataset year the answer lists the available
years. -/
theorem growth_minmax_endpoints :
    ∀ (ctx : BotContext) (query : String) (c : String) (m : Metric) (y1 y2 : ℤ)
      (rest : List ℤ),
      ¬(normalize_text query = "help" ∨ normalize_text query = "h" ∨
          normalize_text query = "?") →
      ¬(Substr "list companies" (normalize_text query) ∨
          normalize_text query = "companies") →
      ¬(Substr "list years" (normalize_text query) ∨ normalize_text query = "years") →
      ¬(Substr "top" (normalize_text query) ∨ Substr "highest" (normalize_text query)) →
      ¬Substr "compare" (normalize_text query) →
      (Substr "growth" (normalize_text query) ∨ Substr "change" (normalize_text query)) →
      find_company (normalize_text query) ctx.companies = some c →
      c ≠ "" →
      find_metric (normalize_text query) = some m →
      sortedYears (findall (normalize_text query).toList) = y1 :: y2 :: rest →
      (y1 ∈ findall (normalize_text query).toList ∧
        (y2 :: rest).getLast (List.cons_ne_nil y2 rest) ∈
          findall (normalize_text query).toList) ∧
      (∀ z ∈ findall (normalize_text query).toList,
        y1 ≤ z ∧ z ≤ (y2 :: rest).getLast (List.cons_ne_nil y2 rest)) ∧
      handle_query ctx query =
        growthKernel ctx c m y1 ((y2 :: rest).getLast (List.cons_ne_nil y2 rest)) ∧
      ((y1 ∉ ctx.years ∨ (y2 :: rest).getLast (List.cons_ne_nil y2 rest) ∉ ctx.years) →
        handle_query ctx query =
          some ("Available years are: " ++
            String.intercalate ", " (ctx.years.map toString))) := by
  intro ctx query c m y1 y2 rest h1 h2 h3 h4 h5 hg hfc hc hfm hys
  have hpair : (y1 :: y2 :: rest).Pairwise (fun a b : ℤ => a ≤ b) := by
    rw [← hys]
    exact sortedYears_pairwise _
  have hmemS : ∀ z, z ∈ (y1 :: y2 :: rest) ↔ z ∈ findall (normalize_text query).toList := by
    intro z
    rw [← hys]
    exact mem_sortedYears _ z
  have hlast_mem : (y2 :: rest).getLast (List.cons_ne_nil y2 rest) ∈ y1 :: y2 :: rest :=
    List.mem_cons_of_mem y1 (List.getLast_mem (List.cons_ne_nil y2 rest))
  have hlast_eq : (y1 :: y2 :: rest).getLast (List.cons_ne_nil y1 (y2 :: rest)) =
      (y2 :: rest).getLast (List.cons_ne_nil y2 rest) :=
    List.getLast_cons (List.cons_ne_nil y2 rest)
  have hcore : handle_query ctx query =
      growthKernel ctx c m y1 ((y2 :: rest).getLast (List.cons_ne_nil y2 rest)) := by
    rw [handle_query, handleCore, if_neg h1, if_neg h2, if_neg h3, if_neg h4,
      if_neg h5, if_pos hg, hfc, hfm, hys]
    simp only [growthBranch]
    rw [if_neg hc]
  refine ⟨⟨(hmemS y1).mp (List.mem_cons_self y1 (y2 :: rest)), (hmemS _).mp hlast_mem⟩,
    ?_, hcore, ?_⟩
  · intro z hz
    have hz' : z ∈ y1 :: y2 :: rest := (hmemS z).mpr hz
    constructor
    · rcases List.mem_cons.mp hz' with rfl | hz2
      · exact le_refl z
      · exact List.rel_of_pairwise_cons hpair hz2
    · rw [← hlast_eq]
      exact pairwise_le_getLast (y1 :: y2 :: rest) hpair
        (List.cons_ne_nil y1 (y2 :: rest)) z hz'
  · intro hnot
    rw [hcore, growthKernel, if_pos hnot]

/-- C5 witness: the query mentions 2023, 2024 and 2025 while the dataset
only has 2024 and 2025, so the minimum endpoint 2023 fails validation and
the answer lists the available years. -/
theorem growth_minmax_endpoints_witness :
    ((Substr "growth" (normalize_text "growth of acme revenue from 2023 to 2024 to 2025") ∨
        Substr "change" (normalize_text "growth of acme revenue from 2023 to 2024 to 2025")) ∧
      find_company (normalize_text "growth of acme revenue from 2023 to 2024 to 2025")
        ctxZero.companies = some "Acme" ∧
      find_metric (normalize_text "growth of acme revenue from 2023 to 2024 to 2025") =
        some Metric.revenue ∧
      sortedYears (findall
        (normalize_text "growth of acme revenue from 2023 to 2024 to 2025").toList) =
        2023 :: 2024 :: [2025]) ∧
    ((2023 : ℤ) ∈ findall
        (normalize_text "growth of acme revenue from 2023 to 2024 to 2025").toList ∧
      ((2024 : ℤ) :: [2025]).getLast (List.cons_ne_nil 2024 [2025]) ∈ findall
        (normalize_text "growth of acme revenue from 2023 to 2024 to 2025").toList) ∧
    (∀ z ∈ findall
        (normalize_text "growth of acme revenue from 2023 to 2024 to 2025").toList,
      (2023 : ℤ) ≤ z ∧ z ≤ ((2024 : ℤ) :: [2025]).getLast (List.cons_ne_nil 2024 [2025])) ∧
    handle_query ctxZero "growth of acme revenue from 2023 to 2024 to 2025" =
      growthKernel ctxZero "Acme" Metric.revenue 2023
        (((2024 : ℤ) :: [2025]).getLast (List.cons_ne_nil 2024 [2025])) ∧
    (((2023 : ℤ) ∉ ctxZero.years ∨
        ((2024 : ℤ) :: [2025]).getLast (List.cons_ne_nil 2024 [2025]) ∉ ctxZero.years) →
      handle_query ctxZero "growth of acme revenue from 2023 to 2024 to 2025" =
        some ("Available years are: " ++
          String.intercalate ", " (ctxZero.years.map toString))) :=
  ⟨⟨Or.inl (by decide), by decide, by decide, by decide⟩,
    growth_minmax_endpoints ctxZero "growth of acme revenue from 2023 to 2024 to 2025"
      "Acme" Metric.revenue 2023 2024 [2025]
      (by decide) (by decide) (by decide) (by decide) (by decide) (Or.inl (by decide))
      (by decide) (by decide) (by decide) (by decide)⟩

end ConcreteEvaluation
